import Mathlib

/-!
Verification of the truenas-mcp-server repository against its
natural-language specification.

The development shallowly embeds the Python sources:

* `src/truenas_mcp/compose_converter.py` (`DockerComposeConverter`):
  YAML values are modelled by the inductive `Yaml` (mapping keys are
  modelled as strings, as produced by the YAML parser for compose
  documents); the YAML parser itself is external (`yaml.safe_load`),
  so a converter input is modelled as the pair of its UTF-8 byte
  length and the parser's outcome (`none` = `yaml.YAMLError`).
  Python dynamic-type failures (`AttributeError`, `TypeError`) are
  modelled by the `Except PyErr` monad.

* `src/truenas_mcp/truenas_client.py` (`TrueNASClient._call`,
  `TrueNASClient.list_directory`) and the identical guard in
  `src/truenas_mcp/mock_client.py`.

* `src/truenas_mcp/mcp_tools.py` (`call_tool` dispatch of the
  `delete_custom_app` / `delete_snapshot` tools and their handlers).

Python string/number primitives used by that code (`str.split`,
`str.strip`, `in`, `int()`, `os.path.normpath`, `re` protocol-suffix
match) are embedded by the `py`-prefixed helpers below.
-/

/-- Python single-character `str.split(sep)` on a character list:
`splitChar sep l` never returns `[]`, and matches Python in that the
empty list splits to `[[]]`. -/
def splitChar (sep : Char) : List Char → List (List Char)
  | [] => [[]]
  | c :: cs =>
    if c = sep then [] :: splitChar sep cs
    else
      match splitChar sep cs with
      | [] => [[c]]
      | p :: ps => (c :: p) :: ps

/-- Python `s.split(sep)` for a one-character separator. -/
def pySplit (s : String) (sep : Char) : List String :=
  (splitChar sep s.data).map String.mk

/-- Python `s.split(sep, 1)` for a one-character separator that is known
to occur in `s`: the part before the first `sep` and the part after it. -/
def pySplit1 (s : String) (sep : Char) : String × String :=
  (String.mk (s.data.takeWhile (· ≠ sep)),
   String.mk ((s.data.dropWhile (· ≠ sep)).drop 1))

/-- Spec-side formulation, "the substring before the first occurrence
of `sep`" (the whole list when `sep` does not occur). -/
def beforeFirst (sep : Char) : List Char → List Char
  | [] => []
  | c :: cs => if c = sep then [] else c :: beforeFirst sep cs

/-- Python substring test `pat in s`. -/
def strContains (s pat : String) : Bool :=
  decide (pat.data <:+: s.data)

/-- Python `s.startswith(pre)`. -/
def strStartsWith (s pre : String) : Bool :=
  decide (pre.data <+: s.data)

/-- Python `s.endswith(suf)`. -/
def strEndsWith (s suf : String) : Bool :=
  decide (suf.data <:+ s.data)

/-- Drop the last `n` characters of a string. -/
def strDropRight (s : String) (n : Nat) : String :=
  String.mk (s.data.take (s.data.length - n))

/-- Python `s.strip("/")`: drop leading and trailing `/` characters. -/
def pyStripSlashes (s : String) : String :=
  String.mk (((s.data.dropWhile (· = '/')).reverse.dropWhile (· = '/')).reverse)

/-- Python `s.replace(old, new)` for one-character `old`/`new`. -/
def pyReplaceChar (s : String) (old new : Char) : String :=
  String.mk (s.data.map fun c => if c = old then new else c)

/-- Lower-casing as used for the transport-failure substring test
(`str.lower`; the probed substrings are ASCII). -/
def lowerStr (s : String) : String :=
  String.mk (s.data.map Char.toLower)

/-- Code points that Python `int()` accepts as whitespace around a
numeric literal (the full Unicode set, determined by probing every
code point against CPython). -/
def pyWsCodes : List Nat :=
  [0x9, 0xa, 0xb, 0xc, 0xd, 0x20, 0x85, 0xa0, 0x1680,
   0x2000, 0x2001, 0x2002, 0x2003, 0x2004, 0x2005, 0x2006, 0x2007,
   0x2008, 0x2009, 0x200a, 0x2028, 0x2029, 0x202f, 0x205f, 0x3000]

/-- Whitespace stripped by Python `int()` before parsing. -/
def pyWs (c : Char) : Bool :=
  pyWsCodes.contains c.toNat

/-- Zero-digit code points of the Unicode decimal-digit (Nd) blocks
that Python `int()` accepts; every block is ten consecutive code
points (determined by probing every code point against CPython). -/
def ndZeroBases : List Nat :=
  [0x30, 0x660, 0x6f0, 0x7c0, 0x966, 0x9e6, 0xa66, 0xae6, 0xb66,
   0xbe6, 0xc66, 0xce6, 0xd66, 0xde6, 0xe50, 0xed0, 0xf20, 0x1040,
   0x1090, 0x17e0, 0x1810, 0x1946, 0x19d0, 0x1a80, 0x1a90, 0x1b50,
   0x1bb0, 0x1c40, 0x1c50, 0xa620, 0xa8d0, 0xa900, 0xa9d0, 0xa9f0,
   0xaa50, 0xabf0, 0xff10, 0x104a0, 0x10d30, 0x11066, 0x110f0,
   0x11136, 0x111d0, 0x112f0, 0x11450, 0x114d0, 0x11650, 0x116c0,
   0x11730, 0x118e0, 0x11950, 0x11c50, 0x11d50, 0x11da0, 0x16a60,
   0x16ac0, 0x16b50, 0x1d7ce, 0x1d7d8, 0x1d7e2, 0x1d7ec, 0x1d7f6,
   0x1e140, 0x1e2f0, 0x1e950, 0x1fbf0]

/-- Decimal value of a character as Python `int()` sees it: its offset
within an Nd block, `none` for every non-digit. -/
def pyDecimalVal (c : Char) : Option Nat :=
  match ndZeroBases.find? (fun b => b ≤ c.toNat && c.toNat < b + 10) with
  | some b => some (c.toNat - b)
  | none => none

/-- Digit run accepted by Python `int()` after the first digit: digits,
optionally separated by single underscores. -/
def pyDigitTail : List Char → Bool
  | [] => true
  | '_' :: c :: rest => (pyDecimalVal c).isSome && pyDigitTail rest
  | '_' :: [] => false
  | c :: rest => (pyDecimalVal c).isSome && pyDigitTail rest

/-- Digit run accepted by Python `int()` (non-empty, underscores only
between digits). -/
def pyDigitRun : List Char → Bool
  | [] => false
  | c :: rest => (pyDecimalVal c).isSome && pyDigitTail rest

/-- Numeric value of a digit run, ignoring the underscores. -/
def digitsVal (l : List Char) : Nat :=
  l.foldl
    (fun acc c =>
      match pyDecimalVal c with
      | some d => acc * 10 + d
      | none => acc)
    0

/-- Python `int(s)`: strip Unicode whitespace, an optional ASCII sign,
then a run of Unicode decimal digits with underscores only between
digits; `none` models the `ValueError` branch. -/
def pyInt (s : String) : Option Int :=
  let l := (s.data.dropWhile pyWs).reverse.dropWhile pyWs |>.reverse
  match l with
  | '+' :: rest => if pyDigitRun rest then some (digitsVal rest) else none
  | '-' :: rest => if pyDigitRun rest then some (-(digitsVal rest : Int)) else none
  | _ => if pyDigitRun l then some (digitsVal l) else none

/-- `posixpath.normpath` (the `os.path.normpath` loop): collapse empty
and `.` components, resolve `..`, preserve the leading-slash count
(with the POSIX exactly-two-slashes special case). -/
def normpathLoop (initialSlashes : Bool) (comps : List String) : List String :=
  comps.foldl
    (fun newComps comp =>
      if comp = "" || comp = "." then newComps
      else if comp ≠ ".." || (!initialSlashes && newComps = []) ||
              (newComps ≠ [] && newComps.getLast? = some "..") then
        newComps ++ [comp]
      else if newComps ≠ [] then newComps.dropLast
      else newComps)
    []

/-- Python `os.path.normpath` on POSIX. -/
def normpath (path : String) : String :=
  if path = "" then "."
  else
    let initialSlashes : Nat :=
      if strStartsWith path "/" then
        if strStartsWith path "//" && !strStartsWith path "///" then 2 else 1
      else 0
    let comps := pySplit path '/'
    let newComps := normpathLoop (initialSlashes ≠ 0) comps
    let joined := String.intercalate "/" newComps
    let p := String.mk (List.replicate initialSlashes '/') ++ joined
    if p = "" then "." else p

/-- Python dynamic-typing failures that the converter can raise on
unexpected value shapes (uncaught in `convert`). -/
inductive PyErr
  | attributeError
  | typeError
deriving DecidableEq

/-- YAML values as produced by `yaml.safe_load` for compose documents;
mapping keys are modelled as strings. -/
inductive Yaml
  | null
  | bool (b : Bool)
  | int (n : Int)
  | str (s : String)
  | list (xs : List Yaml)
  | map (kvs : List (String × Yaml))

/-- Python truthiness of a YAML value. -/
def truthy : Yaml → Bool
  | .null => false
  | .bool b => b
  | .int n => n ≠ 0
  | .str s => s ≠ ""
  | .list xs => !xs.isEmpty
  | .map kvs => !kvs.isEmpty

/-- Lookup in a Python dict built from an association list (later
bindings override earlier ones, as in dict construction). -/
def dictLookup (kvs : List (String × Yaml)) (k : String) : Option Yaml :=
  kvs.foldl (fun acc kv => if kv.1 = k then some kv.2 else acc) none

/-- Python dict assignment `d[k] = v`: overwrite in place if the key is
present, else append. -/
def dictSet {α : Type} (kvs : List (String × α)) (k : String) (v : α) :
    List (String × α) :=
  if (kvs.map Prod.fst).contains k then
    kvs.map fun kv => if kv.1 = k then (k, v) else kv
  else kvs ++ [(k, v)]

/-- Python `value.get(key, default)`: only dicts have `.get`, every
other value raises `AttributeError`. -/
def dictGetE (v : Yaml) (k : String) (dflt : Yaml) : Except PyErr Yaml :=
  match v with
  | .map kvs => .ok ((dictLookup kvs k).getD dflt)
  | _ => .error .attributeError

/-- Python `value.items()`: only dicts have `.items`. -/
def itemsE : Yaml → Except PyErr (List (String × Yaml))
  | .map kvs => .ok kvs
  | _ => .error .attributeError

/-- Calling a `str` method (`.split`) on a value: `AttributeError`
unless the value is a string. -/
def asStrE : Yaml → Except PyErr String
  | .str s => .ok s
  | _ => .error .attributeError

/-- Python iteration `for x in v`: lists yield elements, strings yield
one-character strings, dicts yield their keys; other values raise
`TypeError`. -/
def yiterE : Yaml → Except PyErr (List Yaml)
  | .list xs => .ok xs
  | .str s => .ok (s.data.map fun c => .str (String.mk [c]))
  | .map kvs => .ok (kvs.map fun kv => .str kv.1)
  | _ => .error .typeError

/-- Python `"=" in v`: substring test for strings, membership for
lists and dict keys, `TypeError` otherwise. -/
def containsEqE : Yaml → Except PyErr Bool
  | .str s => .ok (strContains s "=")
  | .list xs =>
    .ok (xs.any fun y => match y with | .str t => t = "=" | _ => false)
  | .map kvs => .ok (kvs.any fun kv => kv.1 = "=")
  | _ => .error .typeError

/-- `MAX_YAML_SIZE` from `compose_converter.py` (100 KiB). -/
def MAX_YAML_SIZE : Nat := 100 * 1024

/-- A converted port forward (`_parse_port` result). -/
structure PortForward where
  host_port : Int
  container_port : Int
  protocol : String
deriving DecidableEq

/-- A converted `network` object: `type` is always `"bridge"`;
`port_forwards = none` models absence of the key. -/
structure Network where
  type : String
  port_forwards : Option (List PortForward)
deriving DecidableEq

/-- A converted storage entry (`_convert_storage` per-volume result). -/
inductive StorageEntry
  | host_path (host_path mount_path : String) (read_only : Bool)
  | ix_volume (dataset_name : String) (acl_enable : Bool) (mount_path : String)
deriving DecidableEq

/-- A converted service (`_convert_service` result); `repository` and
`tag` are the two fields of its `image` object. -/
structure ConvertedService where
  name : String
  repository : String
  tag : String
  network : Network
  storage : List (String × StorageEntry)
  environment : List (String × Yaml)

/-- The converted app configuration (`convert` result). -/
structure TruenasConfig where
  name : String
  services : List ConvertedService
  restart_policy : String

/-- The failures of `convert`: the three `ValueError`s it raises
deliberately, plus uncaught Python dynamic-type errors. -/
inductive ConvertError
  | sizeError
  | parseError
  | schemaError
  | pyError (e : PyErr)
deriving DecidableEq

/-- The image split in `_convert_service`:
`image_str.split(":")[0]` and
`image_str.split(":")[-1] if ":" in image_str else "latest"`. -/
def imageOf (s : String) : String × String :=
  ((pySplit s ':').headI,
   if strContains s ":" then (pySplit s ':').getLastI else "latest")

/-- The protocol-suffix strip in `_parse_port`, the greedy
`re.match` of `^(.+)/(tcp|udp)$`: since `.` never matches a newline
and `$` also matches just before one string-final newline, the match
succeeds exactly when the string — after dropping one trailing
newline, if present — contains no newline, ends in `/tcp` or `/udp`,
and has a non-empty remainder; the groups then exclude the dropped
newline.  On no match the string is returned unchanged with the
default protocol `"tcp"`. -/
def stripProtoSuffix (s : String) : String × String :=
  let core := if strEndsWith s "\n" then strDropRight s 1 else s
  if !core.data.contains '\n' && strEndsWith core "/tcp" &&
      decide (4 < core.data.length) then
    (strDropRight core 4, "tcp")
  else if !core.data.contains '\n' && strEndsWith core "/udp" &&
      decide (4 < core.data.length) then
    (strDropRight core 4, "udp")
  else (s, "tcp")

/-- `DockerComposeConverter._parse_port`. A Python `bool` is an
`isinstance` of `int` and takes the integer branch with value 1 or 0. -/
def parsePort (port : Yaml) : Option PortForward :=
  match port with
  | .int n => some ⟨n, n, "tcp"⟩
  | .bool b => some ⟨if b then 1 else 0, if b then 1 else 0, "tcp"⟩
  | .str s =>
    if !strContains s ":" then none
    else
      let (portStr, protocol) := stripProtoSuffix s
      match pySplit portStr ':' with
      | p0 :: p1 :: _ =>
        match pyInt p0, pyInt p1 with
        | some h, some c => some ⟨h, c, protocol⟩
        | _, _ => none
      | _ => none
  | _ => none

/-- `DockerComposeConverter._convert_network`. -/
def convertNetwork (cfg : Yaml) : Except PyErr Network := do
  let ports ← dictGetE cfg "ports" (.list [])
  if truthy ports then
    let entries ← yiterE ports
    let pfs := entries.filterMap parsePort
    if pfs ≠ [] then
      .ok ⟨"bridge", some pfs⟩
    else
      .ok ⟨"bridge", none⟩
  else
    .ok ⟨"bridge", none⟩

/-- The per-volume body of `_convert_storage` for a string volume
containing `:`: split, normalize the host side, and pick the
`host_path` or `ix_volume` variant. -/
def mkVolumeEntry (s : String) : StorageEntry :=
  let parts := pySplit s ':'
  let hostPath := parts.getD 0 ""
  let containerPath := parts.getD 1 ""
  let readOnly := strContains s ":ro"
  let normalized := normpath hostPath
  if strStartsWith normalized "/mnt/" then
    .host_path normalized containerPath readOnly
  else
    .ix_volume (pyReplaceChar (pyStripSlashes hostPath) '/' '_') false containerPath

/-- The `for i, volume in enumerate(volumes)` loop of
`_convert_storage`; the synthetic keys `volume_<i>` are pairwise
distinct, so building the dict by appending matches dict assignment. -/
def storageOfVolumes : Nat → List Yaml → List (String × StorageEntry)
  | _, [] => []
  | i, v :: vs =>
    (match v with
     | .str s =>
       if strContains s ":" then [("volume_" ++ toString i, mkVolumeEntry s)]
       else []
     | _ => []) ++ storageOfVolumes (i + 1) vs

/-- Volume entries for which the `_convert_storage` loop emits a
storage key: string entries containing `:`. -/
def processedVolume : Yaml → Bool
  | .str s => strContains s ":"
  | _ => false

/-- `DockerComposeConverter._convert_storage`. -/
def convertStorage (cfg : Yaml) : Except PyErr (List (String × StorageEntry)) := do
  let volumes ← dictGetE cfg "volumes" (.list [])
  let entries ← yiterE volumes
  .ok (storageOfVolumes 0 entries)

/-- The list-form loop body of `_convert_environment`: one `env_var`
element updates the accumulated dict. -/
def envStep (env : List (String × Yaml)) (e : Yaml) :
    Except PyErr (List (String × Yaml)) := do
  let b ← containsEqE e
  if b then
    let s ← asStrE e
    let (k, v) := pySplit1 s '='
    .ok (dictSet env k (.str v))
  else
    .ok env

/-- `DockerComposeConverter._convert_environment`. -/
def convertEnvironment (cfg : Yaml) : Except PyErr (List (String × Yaml)) := do
  let environment ← dictGetE cfg "environment" (.list [])
  match environment with
  | .list xs => xs.foldlM envStep []
  | .map kvs => .ok kvs
  | _ => .ok []

/-- `DockerComposeConverter._convert_service`. -/
def convertService (name : String) (cfg : Yaml) :
    Except PyErr ConvertedService := do
  let imageY ← dictGetE cfg "image" (.str "")
  let imageStr ← asStrE imageY
  let network ← convertNetwork cfg
  let storage ← convertStorage cfg
  let environment ← convertEnvironment cfg
  .ok { name := name, repository := (imageOf imageStr).1,
        tag := (imageOf imageStr).2, network := network,
        storage := storage, environment := environment }

/-- The `for service_name, service_config in services.items()` loop of
`convert`: convert each service in order, the first uncaught error
aborting the call. -/
def convertServices : List (String × Yaml) → Except PyErr (List ConvertedService)
  | [] => .ok []
  | kv :: rest => do
    let c ← convertService kv.1 kv.2
    let cs ← convertServices rest
    .ok (c :: cs)

/-- A converter input: the UTF-8 byte length of the YAML text and the
outcome of `yaml.safe_load` on it (`none` = `yaml.YAMLError`). -/
structure YamlText where
  byteLen : Nat
  parsed : Option Yaml

/-- `DockerComposeConverter.convert`. -/
def convert (t : YamlText) (appName : String) :
    Except ConvertError TruenasConfig :=
  if t.byteLen > MAX_YAML_SIZE then .error .sizeError
  else
    match t.parsed with
    | none => .error .parseError
    | some data =>
      match dictGetE data "services" (.map []) with
      | .error e => .error (.pyError e)
      | .ok services =>
        if !truthy services then .error .schemaError
        else
          match itemsE services with
          | .error e => .error (.pyError e)
          | .ok items =>
            match convertServices items with
            | .error e => .error (.pyError e)
            | .ok conv =>
              .ok { name := appName, services := conv,
                    restart_policy := "unless-stopped" }

/-- Shapes of a service definition on which `_convert_service` cannot
raise an uncaught Python error: the definition is a mapping, `image` is
absent or a string, `ports` and `volumes` are absent or sequences, and
list-form `environment` elements are strings. -/
def wellTypedService : Yaml → Bool
  | .map kvs =>
    (match dictLookup kvs "image" with
     | none => true | some (.str _) => true | some _ => false) &&
    (match dictLookup kvs "ports" with
     | none => true | some (.list _) => true | some _ => false) &&
    (match dictLookup kvs "volumes" with
     | none => true | some (.list _) => true | some _ => false) &&
    (match dictLookup kvs "environment" with
     | some (.list xs) => xs.all fun e => match e with | .str _ => true | _ => false
     | _ => true)
  | _ => false

/-- Shapes of a parsed document on which `convert` cannot raise an
uncaught Python error: the document is a mapping whose `services`
value, when present and truthy, is a mapping of well-typed service
definitions. -/
def wellTypedDoc : Yaml → Bool
  | .map kvs =>
    match dictLookup kvs "services" with
    | none => true
    | some (.map svcs) => svcs.all fun kv => wellTypedService kv.2
    | some v => !truthy v
  | _ => false

/-- A converter input whose parsed form, if any, is well-typed. -/
def wellTypedText (t : YamlText) : Prop :=
  ∀ d, t.parsed = some d → wellTypedDoc d = true

/-- The parsed document has a non-empty (truthy) `services` value,
the condition `convert` tests for its schema error. -/
def hasNonemptyServices (d : Yaml) : Bool :=
  match d with
  | .map kvs => truthy ((dictLookup kvs "services").getD (.map []))
  | _ => false

/-- The transport-failure detection in `TrueNASClient._call`:
`any(s in error_str.lower() for s in ("closure", "closed",
"broken pipe", "connection"))`. -/
def isTransportMsg (m : String) : Bool :=
  strContains (lowerStr m) "closure" || strContains (lowerStr m) "closed" ||
  strContains (lowerStr m) "broken pipe" || strContains (lowerStr m) "connection"

/-- The authentication-failure detection in `TrueNASClient._call`:
`"ENOTAUTHENTICATED" in error_str`. -/
def isAuthMsg (m : String) : Bool :=
  strContains m "ENOTAUTHENTICATED"

/-- Outcome of one underlying `self._client.call(method, *params)`
attempt: a result value (abstracted to a natural number), a
`ClientException` with its message, or any other exception. -/
inductive Outcome
  | ok (v : Nat)
  | clientExn (msg : String)
  | otherExn (msg : String)
deriving DecidableEq

/-- What `TrueNASClient._call` raises or returns to its caller. -/
inductive CallResult
  | ok (v : Nat)
  | connectionError (msg : String)
  | authError (msg : String)
  | apiError (msg : String)
  | uncaught (msg : String)
deriving DecidableEq

/-- Externally visible actions of `_call`: an underlying call attempt,
the `disconnect()` in the reconnect path, and the `connect()` attempt. -/
inductive CallEvent
  | callAttempt
  | disconnect
  | connectAttempt
deriving DecidableEq

/-- The environment of one `_call` invocation: whether `self._client`
is set, the method name, the outcome the transport would give the
first attempt, the outcome of `connect()` in the reconnect path
(`some msg` = it raises), and the outcome of the retried attempt. -/
structure CallEnv where
  connected : Bool
  method : String
  first : Outcome
  connectResult : Option String
  retry : Outcome

/-- `TrueNASClient._call`, as the pair of its result and the ordered
trace of actions it performs. `disconnect()` itself swallows errors,
so only `connect()` can fail inside the retry handler; any exception
there or in the retried attempt is caught by `except Exception` and
surfaced as `TrueNASAPIError`. -/
def pyCall (env : CallEnv) : CallResult × List CallEvent :=
  if !env.connected then
    (.connectionError "Not connected to TrueNAS", [])
  else
    match env.first with
    | .ok v => (.ok v, [.callAttempt])
    | .otherExn m => (.uncaught m, [.callAttempt])
    | .clientExn m =>
      if isAuthMsg m then
        (.authError ("Not authenticated: " ++ m), [.callAttempt])
      else if isTransportMsg m then
        match env.connectResult with
        | some m2 =>
          (.apiError ("API call " ++ env.method ++ " failed after reconnect: " ++ m2),
           [.callAttempt, .disconnect, .connectAttempt])
        | none =>
          match env.retry with
          | .ok v => (.ok v, [.callAttempt, .disconnect, .connectAttempt, .callAttempt])
          | .clientExn m2 =>
            (.apiError ("API call " ++ env.method ++ " failed after reconnect: " ++ m2),
             [.callAttempt, .disconnect, .connectAttempt, .callAttempt])
          | .otherExn m2 =>
            (.apiError ("API call " ++ env.method ++ " failed after reconnect: " ++ m2),
             [.callAttempt, .disconnect, .connectAttempt, .callAttempt])
      else
        (.apiError ("API call " ++ env.method ++ " failed: " ++ m), [.callAttempt])

/-- Number of underlying call attempts in a `_call` trace. -/
def callAttempts (tr : List CallEvent) : Nat :=
  (tr.filter (· = .callAttempt)).length

/-- Whether a `_call` result is an error surfaced to the caller. -/
def isCallError : CallResult → Bool
  | .ok _ => false
  | _ => true

/-- The path guard shared verbatim by `TrueNASClient.list_directory`
and `MockTrueNASClient.list_directory`: normalize, then require the
string prefix `"/mnt"`; on success the normalized path is what is
forwarded to the backend lookup. -/
def listDirectoryGuard (path : String) : Except String String :=
  let normalized := normpath path
  if !strStartsWith normalized "/mnt" then .error "Path must be under /mnt/"
  else .ok normalized

/-- A path that lies under the fixed root `/mnt`: the root itself or a
path inside it. -/
def underMntRoot (p : String) : Bool :=
  p = "/mnt" || strStartsWith p "/mnt/"

/-- `TextContent(type="text", text=...)` results of the tool handlers. -/
structure TextContent where
  type : String
  text : String
deriving DecidableEq

/-- A dispatcher failure result is marked with a leading `❌`. -/
def isErrorMarked (t : TextContent) : Bool :=
  match t.text.data with
  | c :: _ => c = '❌'
  | [] => false

/-- `MCPToolsHandler._delete_custom_app`, over an abstract backend
state `σ` and the backend operation `self.client.delete_app`. -/
def deleteCustomAppHandler (σ : Type) (appName : String)
    (deleteVolumes confirmDeletion : Bool)
    (backendDelete : String → Bool → σ → Bool × σ) (s : σ) :
    TextContent × σ :=
  if !confirmDeletion then
    (⟨"text", "❌ Deletion not confirmed. Set confirm_deletion=true to proceed."⟩, s)
  else
    let (success, s2) := backendDelete appName deleteVolumes s
    if success then
      (⟨"text", "✅ Deleted Custom App \x27" ++ appName ++ "\x27 successfully"⟩, s2)
    else
      (⟨"text", "❌ Failed to delete Custom App \x27" ++ appName ++ "\x27"⟩, s2)

/-- `MCPToolsHandler._delete_snapshot`, over an abstract backend state
`σ` and the backend operation `self.client.delete_snapshot`. -/
def deleteSnapshotHandler (σ : Type) (snapshotName : String)
    (confirmDeletion : Bool)
    (backendDelete : String → σ → Bool × σ) (s : σ) :
    TextContent × σ :=
  if !confirmDeletion then
    (⟨"text", "❌ Deletion not confirmed. Set confirm_deletion=true to proceed."⟩, s)
  else
    let (success, s2) := backendDelete snapshotName s
    if success then
      (⟨"text", "✅ Deleted snapshot \x27" ++ snapshotName ++ "\x27"⟩, s2)
    else
      (⟨"text", "❌ Failed to delete snapshot \x27" ++ snapshotName ++ "\x27"⟩, s2)

/-- The `call_tool` dispatch of `delete_custom_app`: a missing
`confirm_deletion` argument raises `KeyError` at
`arguments["confirm_deletion"]`, which the surrounding
`except Exception` turns into an error-marked text result before the
handler (and hence the backend) is reached. -/
def dispatchDeleteCustomApp (σ : Type) (appName : String)
    (deleteVolumes confirmDeletion : Option Bool)
    (backendDelete : String → Bool → σ → Bool × σ) (s : σ) :
    TextContent × σ :=
  match confirmDeletion with
  | none =>
    (⟨"text", "❌ Error executing delete_custom_app: \x27confirm_deletion\x27"⟩, s)
  | some c =>
    deleteCustomAppHandler σ appName (deleteVolumes.getD false) c backendDelete s

/-- The `call_tool` dispatch of `delete_snapshot` (see
`dispatchDeleteCustomApp` for the missing-argument path). -/
def dispatchDeleteSnapshot (σ : Type) (snapshotName : String)
    (confirmDeletion : Option Bool)
    (backendDelete : String → σ → Bool × σ) (s : σ) :
    TextContent × σ :=
  match confirmDeletion with
  | none =>
    (⟨"text", "❌ Error executing delete_snapshot: \x27confirm_deletion\x27"⟩, s)
  | some c =>
    deleteSnapshotHandler σ snapshotName c backendDelete s

/-! ## Helper lemmas -/

theorem splitChar_ne_nil (sep : Char) (l : List Char) : splitChar sep l ≠ [] := by
  induction l with
  | nil => simp [splitChar]
  | cons c cs ih =>
    by_cases hc : c = sep
    · simp [splitChar, hc]
    · simp only [splitChar, if_neg hc]
      cases h : splitChar sep cs with
      | nil => exact absurd h ih
      | cons p ps => simp

theorem splitChar_headI (sep : Char) (l : List Char) :
    (splitChar sep l).headI = beforeFirst sep l := by
  induction l with
  | nil => rfl
  | cons c cs ih =>
    by_cases hc : c = sep
    · simp [splitChar, beforeFirst, hc]
    · simp only [splitChar, beforeFirst, if_neg hc]
      cases h : splitChar sep cs with
      | nil => exact absurd h (splitChar_ne_nil sep cs)
      | cons p ps =>
        rw [h] at ih
        simp only [List.headI] at ih ⊢
        rw [ih]

theorem getLastI_concat {α : Type} [Inhabited α] (ys : List α) (y : α) :
    (ys ++ [y]).getLastI = y := by
  rw [List.getLastI_eq_getLast?, List.getLast?_concat]

theorem getLastI_cons_cons {α : Type} [Inhabited α] (a b : α) (l : List α) :
    (a :: b :: l).getLastI = (b :: l).getLastI := by
  induction l generalizing a b with
  | nil => rfl
  | cons c l2 ih =>
    have h1 : (a :: b :: c :: l2).getLastI = (c :: l2).getLastI := rfl
    rw [h1]
    exact (ih b c).symm

theorem splitChar_cons (sep c : Char) (cs : List Char) :
    splitChar sep (c :: cs) =
      if c = sep then [] :: splitChar sep cs
      else
        match splitChar sep cs with
        | [] => [[c]]
        | p :: ps => (c :: p) :: ps := rfl

theorem splitChar_concat (sep : Char) (xs : List Char) (x : Char) :
    splitChar sep (xs ++ [x]) =
      if x = sep then splitChar sep xs ++ [[]]
      else (splitChar sep xs).dropLast ++ [(splitChar sep xs).getLastI ++ [x]] := by
  induction xs with
  | nil =>
    by_cases hx : x = sep
    · simp [splitChar, hx]
    · simp [splitChar, hx, List.getLastI]
  | cons c cs ih =>
    rcases h : splitChar sep cs with _ | ⟨p, ps⟩
    · exact absurd h (splitChar_ne_nil sep cs)
    rw [List.cons_append, splitChar_cons, ih, splitChar_cons, h]
    by_cases hc : c = sep
    · simp only [if_pos hc]
      by_cases hx : x = sep
      · simp [hx]
      · simp only [if_neg hx]
        rcases ps with _ | ⟨p2, ps2⟩ <;>
          simp [List.dropLast, List.getLastI, getLastI_cons_cons]
    · simp only [if_neg hc]
      by_cases hx : x = sep
      · simp [hx]
      · simp only [if_neg hx]
        rcases ps with _ | ⟨p2, ps2⟩ <;>
          simp [List.dropLast, List.getLastI, getLastI_cons_cons]

theorem splitChar_getLastI (sep : Char) (l : List Char) :
    (splitChar sep l).getLastI = (beforeFirst sep l.reverse).reverse := by
  induction l using List.reverseRecOn with
  | nil => rfl
  | append_singleton xs x ih =>
    rw [splitChar_concat]
    by_cases hx : x = sep
    · simp [hx, getLastI_concat, beforeFirst]
    · simp only [if_neg hx, getLastI_concat, List.reverse_append, List.reverse_cons,
        List.reverse_nil, List.nil_append, List.singleton_append, beforeFirst,
        if_neg hx, List.reverse_cons, ih]

theorem infix_singleton {α : Type} (a : α) (l : List α) : [a] <:+: l ↔ a ∈ l := by
  constructor
  · intro h
    exact h.subset (List.mem_singleton_self a)
  · intro h
    obtain ⟨s, t, rfl⟩ := List.append_of_mem h
    exact ⟨s, t, by simp⟩

theorem headI_map {α β : Type} [Inhabited α] [Inhabited β] (f : α → β)
    (l : List α) (h : l ≠ []) : (l.map f).headI = f l.headI := by
  cases l with
  | nil => exact absurd rfl h
  | cons a l2 => rfl

theorem getLastI_map {α β : Type} [Inhabited α] [Inhabited β] (f : α → β)
    (l : List α) (h : l ≠ []) : (l.map f).getLastI = f l.getLastI := by
  induction l with
  | nil => exact absurd rfl h
  | cons a l2 ih =>
    cases l2 with
    | nil => rfl
    | cons b l3 =>
      simpa [getLastI_cons_cons] using ih (List.cons_ne_nil b l3)

theorem pySplit_ne_nil (s : String) (sep : Char) : pySplit s sep ≠ [] := by
  unfold pySplit
  simp [splitChar_ne_nil]

theorem pySplit_headI (s : String) (sep : Char) :
    (pySplit s sep).headI = String.mk (beforeFirst sep s.data) := by
  unfold pySplit
  rw [headI_map String.mk _ (splitChar_ne_nil sep s.data), splitChar_headI]

theorem pySplit_getLastI (s : String) (sep : Char) :
    (pySplit s sep).getLastI = String.mk ((beforeFirst sep s.data.reverse).reverse) := by
  unfold pySplit
  rw [getLastI_map String.mk _ (splitChar_ne_nil sep s.data), splitChar_getLastI]

theorem strContains_colon_iff (s : String) :
    strContains s ":" = true ↔ ':' ∈ s.data := by
  unfold strContains
  rw [decide_eq_true_eq]
  exact infix_singleton ':' s.data

theorem exc_bind_ok {ε α β : Type} (a : α) (f : α → Except ε β) :
    (Except.ok a >>= f) = f a := rfl

theorem exc_bind_error {ε α β : Type} (e : ε) (f : α → Except ε β) :
    ((Except.error e : Except ε α) >>= f) = Except.error e := rfl

theorem convertService_image (name : String) (kvs : List (String × Yaml))
    (svc : ConvertedService) (s : String)
    (him : (dictLookup kvs "image").getD (.str "") = .str s)
    (hok : convertService name (.map kvs) = .ok svc) :
    svc.repository = (imageOf s).1 ∧ svc.tag = (imageOf s).2 := by
  unfold convertService at hok
  rw [show dictGetE (Yaml.map kvs) "image" (.str "") = Except.ok (Yaml.str s) from by
        simp [dictGetE, him]] at hok
  rw [exc_bind_ok, show asStrE (Yaml.str s) = Except.ok s from rfl, exc_bind_ok] at hok
  cases hnet : convertNetwork (Yaml.map kvs) with
  | error e => rw [hnet, exc_bind_error] at hok; exact Except.noConfusion hok
  | ok net =>
    rw [hnet, exc_bind_ok] at hok
    cases hst : convertStorage (Yaml.map kvs) with
    | error e => rw [hst, exc_bind_error] at hok; exact Except.noConfusion hok
    | ok st =>
      rw [hst, exc_bind_ok] at hok
      cases henv : convertEnvironment (Yaml.map kvs) with
      | error e => rw [henv, exc_bind_error] at hok; exact Except.noConfusion hok
      | ok env =>
        rw [henv, exc_bind_ok] at hok
        cases hok
        exact ⟨rfl, rfl⟩

theorem convertNetwork_ok_none (kvs : List (String × Yaml))
    (h : dictLookup kvs "ports" = none) :
    convertNetwork (.map kvs) = .ok ⟨"bridge", none⟩ := by
  unfold convertNetwork
  rw [show dictGetE (Yaml.map kvs) "ports" (.list []) = Except.ok (Yaml.list []) from by
        simp [dictGetE, h]]
  rfl

theorem convertNetwork_ok_list (kvs : List (String × Yaml)) (ps : List Yaml)
    (h : dictLookup kvs "ports" = some (.list ps)) :
    convertNetwork (.map kvs) =
      .ok ⟨"bridge",
        if ps.filterMap parsePort = [] then none
        else some (ps.filterMap parsePort)⟩ := by
  unfold convertNetwork
  rw [show dictGetE (Yaml.map kvs) "ports" (.list []) = Except.ok (Yaml.list ps) from by
        simp [dictGetE, h]]
  rw [exc_bind_ok]
  cases ps with
  | nil => rfl
  | cons p ps2 =>
    rw [show truthy (Yaml.list (p :: ps2)) = true from rfl]
    simp only [if_true]
    rw [show yiterE (Yaml.list (p :: ps2)) = Except.ok (p :: ps2) from rfl, exc_bind_ok]
    by_cases hf : (p :: ps2).filterMap parsePort = []
    · simp [hf]
    · simp [hf]

theorem convertStorage_ok_none (kvs : List (String × Yaml))
    (h : dictLookup kvs "volumes" = none) :
    convertStorage (.map kvs) = .ok [] := by
  unfold convertStorage
  rw [show dictGetE (Yaml.map kvs) "volumes" (.list []) = Except.ok (Yaml.list []) from by
        simp [dictGetE, h]]
  rfl

theorem convertStorage_ok_list (kvs : List (String × Yaml)) (vols : List Yaml)
    (h : dictLookup kvs "volumes" = some (.list vols)) :
    convertStorage (.map kvs) = .ok (storageOfVolumes 0 vols) := by
  unfold convertStorage
  rw [show dictGetE (Yaml.map kvs) "volumes" (.list []) = Except.ok (Yaml.list vols) from by
        simp [dictGetE, h]]
  rfl

theorem envFold_ok (xs : List Yaml)
    (h : ∀ e ∈ xs, ∃ s, e = Yaml.str s) :
    ∀ acc, ∃ r, xs.foldlM envStep acc = Except.ok r := by
  induction xs with
  | nil => intro acc; exact ⟨acc, rfl⟩
  | cons e xs2 ih =>
    intro acc
    obtain ⟨s, rfl⟩ := h e (by simp)
    have hstep : ∃ acc2, envStep acc (Yaml.str s) = Except.ok acc2 := by
      unfold envStep
      rw [show containsEqE (Yaml.str s) = Except.ok (strContains s "=") from rfl,
          exc_bind_ok]
      by_cases hc : strContains s "="
      · simp only [hc]
        exact ⟨_, rfl⟩
      · simp only [hc]
        exact ⟨acc, rfl⟩
    obtain ⟨acc2, hacc2⟩ := hstep
    obtain ⟨r, hr⟩ := ih (fun e2 he2 => h e2 (by simp [he2])) acc2
    refine ⟨r, ?_⟩
    rw [List.foldlM_cons, hacc2, exc_bind_ok, hr]

theorem convertEnvironment_ok (kvs : List (String × Yaml))
    (h : ∀ xs, dictLookup kvs "environment" = some (.list xs) →
           ∀ e ∈ xs, ∃ s, e = Yaml.str s) :
    ∃ env, convertEnvironment (.map kvs) = .ok env := by
  unfold convertEnvironment
  cases henv : dictLookup kvs "environment" with
  | none =>
    rw [show dictGetE (Yaml.map kvs) "environment" (.list []) = Except.ok (Yaml.list [])
          from by simp [dictGetE, henv]]
    exact ⟨[], rfl⟩
  | some v =>
    rw [show dictGetE (Yaml.map kvs) "environment" (.list []) = Except.ok v from by
          simp [dictGetE, henv]]
    rw [exc_bind_ok]
    cases v with
    | list xs =>
      obtain ⟨r, hr⟩ := envFold_ok xs (h xs henv) []
      exact ⟨r, hr⟩
    | map m => exact ⟨m, rfl⟩
    | null => exact ⟨[], rfl⟩
    | bool b => exact ⟨[], rfl⟩
    | int n => exact ⟨[], rfl⟩
    | str s => exact ⟨[], rfl⟩

theorem convertService_ok_of_wellTyped (name : String) (cfg : Yaml)
    (h : wellTypedService cfg = true) :
    ∃ svc, convertService name cfg = .ok svc := by
  cases cfg with
  | null => simp [wellTypedService] at h
  | bool b => simp [wellTypedService] at h
  | int n => simp [wellTypedService] at h
  | str s => simp [wellTypedService] at h
  | list xs => simp [wellTypedService] at h
  | map kvs =>
    unfold wellTypedService at h
    simp only [Bool.and_eq_true] at h
    obtain ⟨⟨⟨h1, h2⟩, h3⟩, h4⟩ := h
    have himg : ∃ s, dictGetE (Yaml.map kvs) "image" (.str "") = Except.ok (Yaml.str s) := by
      cases hl : dictLookup kvs "image" with
      | none => exact ⟨"", by simp [dictGetE, hl]⟩
      | some v =>
        rw [hl] at h1
        cases v with
        | str s => exact ⟨s, by simp [dictGetE, hl]⟩
        | null => simp at h1
        | bool b => simp at h1
        | int n => simp at h1
        | list xs => simp at h1
        | map m => simp at h1
    have hnet : ∃ net, convertNetwork (Yaml.map kvs) = Except.ok net := by
      cases hl : dictLookup kvs "ports" with
      | none => exact ⟨_, convertNetwork_ok_none kvs hl⟩
      | some v =>
        rw [hl] at h2
        cases v with
        | list ps => exact ⟨_, convertNetwork_ok_list kvs ps hl⟩
        | null => simp at h2
        | bool b => simp at h2
        | int n => simp at h2
        | str s => simp at h2
        | map m => simp at h2
    have hst : ∃ st, convertStorage (Yaml.map kvs) = Except.ok st := by
      cases hl : dictLookup kvs "volumes" with
      | none => exact ⟨_, convertStorage_ok_none kvs hl⟩
      | some v =>
        rw [hl] at h3
        cases v with
        | list vols => exact ⟨_, convertStorage_ok_list kvs vols hl⟩
        | null => simp at h3
        | bool b => simp at h3
        | int n => simp at h3
        | str s => simp at h3
        | map m => simp at h3
    have henv : ∃ env, convertEnvironment (Yaml.map kvs) = Except.ok env := by
      refine convertEnvironment_ok kvs ?_
      intro xs hl e he
      rw [hl] at h4
      have he2 := List.all_eq_true.mp h4 e he
      cases e with
      | str s => exact ⟨s, rfl⟩
      | null => simp at he2
      | bool b => simp at he2
      | int n => simp at he2
      | list ys => simp at he2
      | map m => simp at he2
    obtain ⟨s, hs⟩ := himg
    obtain ⟨net, hnet⟩ := hnet
    obtain ⟨st, hst⟩ := hst
    obtain ⟨env, henv⟩ := henv
    refine ⟨{ name := name, repository := (imageOf s).1, tag := (imageOf s).2,
              network := net, storage := st, environment := env }, ?_⟩
    unfold convertService
    rw [hs, exc_bind_ok, show asStrE (Yaml.str s) = Except.ok s from rfl, exc_bind_ok,
        hnet, exc_bind_ok, hst, exc_bind_ok, henv, exc_bind_ok]

theorem convertServices_ok (items : List (String × Yaml))
    (h : ∀ kv ∈ items, wellTypedService kv.2 = true) :
    ∃ cs, convertServices items = Except.ok cs := by
  induction items with
  | nil => exact ⟨[], rfl⟩
  | cons kv rest ih =>
    obtain ⟨svc, hsvc⟩ := convertService_ok_of_wellTyped kv.1 kv.2 (h kv (by simp))
    obtain ⟨cs, hcs⟩ := ih fun kv2 hkv2 => h kv2 (by simp [hkv2])
    refine ⟨svc :: cs, ?_⟩
    unfold convertServices
    rw [hsvc, exc_bind_ok, hcs, exc_bind_ok]

theorem convert_eq_of_services (bl : Nat) (app : String)
    (kvs : List (String × Yaml)) (sv : Yaml)
    (hsize : ¬ bl > MAX_YAML_SIZE)
    (hserv : (dictLookup kvs "services").getD (.map []) = sv) :
    convert ⟨bl, some (.map kvs)⟩ app =
      if !truthy sv then .error .schemaError
      else
        match itemsE sv with
        | .error e => .error (.pyError e)
        | .ok items =>
          match convertServices items with
          | .error e => .error (.pyError e)
          | .ok conv =>
            .ok { name := app, services := conv,
                  restart_policy := "unless-stopped" } := by
  subst hserv
  unfold convert
  rw [if_neg hsize]
  rfl

theorem wellTypedDoc_map (kvs : List (String × Yaml)) :
    wellTypedDoc (.map kvs) =
      match dictLookup kvs "services" with
      | none => true
      | some (.map svcs) => svcs.all fun kv => wellTypedService kv.2
      | some v => !truthy v := rfl

theorem parsePort_str (s : String) :
    parsePort (.str s) =
      if !strContains s ":" then none
      else
        match pySplit (stripProtoSuffix s).1 ':' with
        | p0 :: p1 :: _ =>
          match pyInt p0, pyInt p1 with
          | some hp, some cp => some ⟨hp, cp, (stripProtoSuffix s).2⟩
          | _, _ => none
        | _ => none := rfl

/-! ## Claim theorems -/

/-- C1 (amended): for every input whose parsed document is well-typed
(document a mapping; `services` absent, falsy, or a mapping of service
definitions that are mappings with string-or-absent `image`,
sequence-or-absent `ports` and `volumes`, and string elements in a
list-form `environment`), `convert` either returns a configuration or
fails with exactly one of the three document-level errors: size
(byte length over `MAX_YAML_SIZE`), parse (the YAML parser failed), or
schema (no non-empty `services` value).  In particular malformed
entries inside a well-typed service — bad port specs, non-string
volume entries, environment elements without `=` — never make
`convert` fail.  Without the well-typedness assumption a fourth
failure is possible (see the counterexample theorem). -/
theorem convert_document_level_error_taxonomy (t : YamlText) (app : String)
    (h : wellTypedText t) :
    (t.byteLen > MAX_YAML_SIZE ∧ convert t app = .error .sizeError)
  ∨ (t.byteLen ≤ MAX_YAML_SIZE ∧ t.parsed = none ∧
       convert t app = .error .parseError)
  ∨ (∃ d, t.byteLen ≤ MAX_YAML_SIZE ∧ t.parsed = some d ∧
       hasNonemptyServices d = false ∧ convert t app = .error .schemaError)
  ∨ (∃ cfg, convert t app = .ok cfg) := by
  obtain ⟨bl, pr⟩ := t
  by_cases hsize : bl > MAX_YAML_SIZE
  · refine Or.inl ⟨hsize, ?_⟩
    unfold convert
    rw [if_pos hsize]
  · have hle : bl ≤ MAX_YAML_SIZE := Nat.le_of_not_lt hsize
    cases pr with
    | none =>
      refine Or.inr (Or.inl ⟨hle, rfl, ?_⟩)
      unfold convert
      rw [if_neg hsize]
    | some d =>
      have wd := h d rfl
      cases d with
      | null => simp [wellTypedDoc] at wd
      | bool b => simp [wellTypedDoc] at wd
      | int n => simp [wellTypedDoc] at wd
      | str s => simp [wellTypedDoc] at wd
      | list xs => simp [wellTypedDoc] at wd
      | map kvs =>
        rw [wellTypedDoc_map] at wd
        cases hserv : dictLookup kvs "services" with
        | none =>
          refine Or.inr (Or.inr (Or.inl ⟨Yaml.map kvs, hle, rfl, ?_, ?_⟩))
          · show truthy ((dictLookup kvs "services").getD (Yaml.map [])) = false
            rw [hserv]
            rfl
          · rw [convert_eq_of_services bl app kvs (Yaml.map []) hsize
                  (by rw [hserv]; rfl)]
            rfl
        | some sv =>
          rw [hserv] at wd
          have hgetd : (dictLookup kvs "services").getD (Yaml.map []) = sv := by
            rw [hserv]
            rfl
          cases sv with
          | map svcs =>
            cases svcs with
            | nil =>
              refine Or.inr (Or.inr (Or.inl ⟨Yaml.map kvs, hle, rfl, ?_, ?_⟩))
              · show truthy ((dictLookup kvs "services").getD (Yaml.map [])) = false
                rw [hserv]
                rfl
              · rw [convert_eq_of_services bl app kvs (Yaml.map []) hsize hgetd]
                rfl
            | cons kv rest =>
              have wd2 : ((kv :: rest).all fun kv2 => wellTypedService kv2.2) = true := wd
              have hall : ∀ kv2 ∈ kv :: rest, wellTypedService kv2.2 = true :=
                fun kv2 hkv2 => List.all_eq_true.mp wd2 kv2 hkv2
              obtain ⟨cs, hcs⟩ := convertServices_ok (kv :: rest) hall
              refine Or.inr (Or.inr (Or.inr
                ⟨{ name := app, services := cs, restart_policy := "unless-stopped" }, ?_⟩))
              have e2 : convert ⟨bl, some (Yaml.map kvs)⟩ app =
                  (match convertServices (kv :: rest) with
                   | .error e => Except.error (ConvertError.pyError e)
                   | .ok conv =>
                     Except.ok { name := app, services := conv,
                                 restart_policy := "unless-stopped" }) := by
                rw [convert_eq_of_services bl app kvs (Yaml.map (kv :: rest)) hsize hgetd]
                rfl
              rw [e2, hcs]
          | null =>
            have wd2 : (!truthy Yaml.null) = true := wd
            refine Or.inr (Or.inr (Or.inl ⟨Yaml.map kvs, hle, rfl, ?_, ?_⟩))
            · show truthy ((dictLookup kvs "services").getD (Yaml.map [])) = false
              rw [hgetd]
              simpa using wd2
            · rw [convert_eq_of_services bl app kvs Yaml.null hsize hgetd, wd2]
              rfl
          | bool b =>
            have wd2 : (!truthy (Yaml.bool b)) = true := wd
            refine Or.inr (Or.inr (Or.inl ⟨Yaml.map kvs, hle, rfl, ?_, ?_⟩))
            · show truthy ((dictLookup kvs "services").getD (Yaml.map [])) = false
              rw [hgetd]
              simpa using wd2
            · rw [convert_eq_of_services bl app kvs (Yaml.bool b) hsize hgetd, wd2]
              rfl
          | int n =>
            have wd2 : (!truthy (Yaml.int n)) = true := wd
            refine Or.inr (Or.inr (Or.inl ⟨Yaml.map kvs, hle, rfl, ?_, ?_⟩))
            · show truthy ((dictLookup kvs "services").getD (Yaml.map [])) = false
              rw [hgetd]
              simpa using wd2
            · rw [convert_eq_of_services bl app kvs (Yaml.int n) hsize hgetd, wd2]
              rfl
          | str s =>
            have wd2 : (!truthy (Yaml.str s)) = true := wd
            refine Or.inr (Or.inr (Or.inl ⟨Yaml.map kvs, hle, rfl, ?_, ?_⟩))
            · show truthy ((dictLookup kvs "services").getD (Yaml.map [])) = false
              rw [hgetd]
              simpa using wd2
            · rw [convert_eq_of_services bl app kvs (Yaml.str s) hsize hgetd, wd2]
              rfl
          | list xs =>
            have wd2 : (!truthy (Yaml.list xs)) = true := wd
            refine Or.inr (Or.inr (Or.inl ⟨Yaml.map kvs, hle, rfl, ?_, ?_⟩))
            · show truthy ((dictLookup kvs "services").getD (Yaml.map [])) = false
              rw [hgetd]
              simpa using wd2
            · rw [convert_eq_of_services bl app kvs (Yaml.list xs) hsize hgetd, wd2]
              rfl

/-- Witness for C1: the taxonomy applied to a concrete well-typed
one-service document, on which `convert` succeeds. -/
theorem convert_document_level_error_taxonomy_witness :
    ∃ cfg, convert ⟨5, some (.map [("services", .map [("web", .map [])])])⟩
      "app" = .ok cfg := by
  rcases convert_document_level_error_taxonomy
      ⟨5, some (.map [("services", .map [("web", .map [])])])⟩ "app"
      (by intro d hd; simp only [Option.some.injEq] at hd; subst hd; decide) with
    ⟨h1, _⟩ | ⟨_, h2, _⟩ | ⟨d, _, hd, hne, _⟩ | hok
  · exact absurd h1 (by decide)
  · exact Option.noConfusion h2
  · simp only [Option.some.injEq] at hd
    subst hd
    exact absurd hne (by decide)
  · exact hok

/-- Counterexample for C1 as stated: a small document that parses to
the YAML scalar `"hello"` makes `convert` fail with an uncaught
`AttributeError` (Python evaluates `"hello".get("services", {})`),
which is none of the three document-level errors the claim allows. -/
theorem convert_scalar_document_attribute_error :
    convert ⟨5, some (.str "hello")⟩ "app" =
      .error (.pyError .attributeError)
  ∧ ConvertError.pyError .attributeError ≠ .sizeError
  ∧ ConvertError.pyError .attributeError ≠ .parseError
  ∧ ConvertError.pyError .attributeError ≠ .schemaError :=
  ⟨rfl, by decide, by decide, by decide⟩

/-- C2: for every service whose image string `s` is non-empty, the
repository field equals the substring of `s` before the first `:`;
the tag equals the substring after the last `:` when `s` contains a
`:`, and `"latest"` otherwise; and a successfully converted service
carries exactly this `(repository, tag)` pair. -/
theorem image_repository_tag_rule (s : String) (hs : s ≠ "") :
    (imageOf s).1 = String.mk (beforeFirst ':' s.data)
  ∧ (strContains s ":" = true →
       (imageOf s).2 = String.mk ((beforeFirst ':' s.data.reverse).reverse))
  ∧ (strContains s ":" = false → (imageOf s).2 = "latest")
  ∧ (∀ name kvs svc, dictLookup kvs "image" = some (.str s) →
       convertService name (.map kvs) = .ok svc →
       svc.repository = (imageOf s).1 ∧ svc.tag = (imageOf s).2) := by
  refine ⟨?_, ?_, ?_, ?_⟩
  · show (pySplit s ':').headI = _
    exact pySplit_headI s ':'
  · intro hc
    show (if strContains s ":" then (pySplit s ':').getLastI else "latest") = _
    rw [if_pos hc]
    exact pySplit_getLastI s ':'
  · intro hc
    show (if strContains s ":" then (pySplit s ':').getLastI else "latest") = _
    rw [hc]
    rfl
  · intro name kvs svc him hok
    exact convertService_image name kvs svc s (by rw [him]; rfl) hok

/-- Witness for C2 at the image string `"nginx:1.25"`. -/
theorem image_repository_tag_rule_witness :
    (imageOf "nginx:1.25").1 = "nginx" ∧ (imageOf "nginx:1.25").2 = "1.25" := by
  have h := image_repository_tag_rule "nginx:1.25" (by decide)
  exact ⟨h.1.trans (by decide), (h.2.1 (by decide)).trans (by decide)⟩

/-- C3: for every `ports` sequence of a service — an integer entry `p`
yields the forward `(p, p, "tcp")`; a string entry with the optional
`/tcp` or `/udp` suffix stripped yields the forward obtained by
splitting the remainder on `:` when both leading parts parse as
integers; any malformed entry (non-string non-integer, missing `:`,
non-parseable parts) contributes no forward and does not abort the
network conversion; and `port_forwards` is present (`some`) iff at
least one entry parsed, in which case it is the in-order list of the
successfully parsed entries. -/
theorem port_forwards_semantics (kvs : List (String × Yaml)) (ps : List Yaml)
    (h : dictLookup kvs "ports" = some (.list ps)) :
    (∃ pfs, convertNetwork (.map kvs) = .ok ⟨"bridge", pfs⟩
      ∧ (pfs = none ↔ ∀ p ∈ ps, parsePort p = none)
      ∧ (∀ l, pfs = some l → l = ps.filterMap parsePort))
  ∧ (∀ n : Int, parsePort (.int n) = some ⟨n, n, "tcp"⟩)
  ∧ (∀ s, strContains s ":" = false → parsePort (.str s) = none)
  ∧ parsePort .null = none
  ∧ (∀ xs, parsePort (.list xs) = none)
  ∧ (∀ m, parsePort (.map m) = none)
  ∧ (∀ s p0 p1 rest, strContains s ":" = true →
       pySplit (stripProtoSuffix s).1 ':' = p0 :: p1 :: rest →
       (pyInt p0 = none ∨ pyInt p1 = none) →
       parsePort (.str s) = none)
  ∧ (∀ s p0 p1 rest hp cp, strContains s ":" = true →
       pySplit (stripProtoSuffix s).1 ':' = p0 :: p1 :: rest →
       pyInt p0 = some hp → pyInt p1 = some cp →
       parsePort (.str s) = some ⟨hp, cp, (stripProtoSuffix s).2⟩) := by
  refine ⟨?_, fun n => rfl, ?_, rfl, fun xs => rfl, fun m => rfl, ?_, ?_⟩
  · refine ⟨if ps.filterMap parsePort = [] then none
            else some (ps.filterMap parsePort),
      convertNetwork_ok_list kvs ps h, ?_, ?_⟩
    · by_cases hf : ps.filterMap parsePort = []
      · simp only [if_pos hf]
        simpa [List.filterMap_eq_nil_iff] using hf
      · simp only [if_neg hf]
        constructor
        · intro hcon
          exact Option.noConfusion hcon
        · intro hall
          exact absurd (List.filterMap_eq_nil_iff.mpr hall) hf
    · intro l hl
      by_cases hf : ps.filterMap parsePort = []
      · rw [if_pos hf] at hl
        exact Option.noConfusion hl
      · rw [if_neg hf] at hl
        exact (Option.some.injEq _ _ ▸ hl).symm
  · intro s hc
    rw [parsePort_str, show (!strContains s ":") = true from by rw [hc]; rfl]
    rfl
  · intro s p0 p1 rest hc hsplit hbad
    rw [parsePort_str, show (!strContains s ":") = false from by rw [hc]; rfl]
    simp only [Bool.false_eq_true, if_false]
    rw [hsplit]
    show (match pyInt p0, pyInt p1 with
          | some hp2, some cp2 =>
            some (⟨hp2, cp2, (stripProtoSuffix s).2⟩ : PortForward)
          | _, _ => none) = none
    rcases hbad with h0 | h1
    · rw [h0]
    · rcases hp0 : pyInt p0 with _ | v
      · rfl
      · rw [h1]
  · intro s p0 p1 rest hp cp hc hsplit h0 h1
    rw [parsePort_str, show (!strContains s ":") = false from by rw [hc]; rfl]
    simp only [Bool.false_eq_true, if_false]
    rw [hsplit]
    show (match pyInt p0, pyInt p1 with
          | some hp2, some cp2 =>
            some (⟨hp2, cp2, (stripProtoSuffix s).2⟩ : PortForward)
          | _, _ => none) =
      some ⟨hp, cp, (stripProtoSuffix s).2⟩
    rw [h0, h1]

/-- Witness for C3: a concrete service with one good and one bad port
entry; the bad entry is skipped and only the good one is forwarded. -/
theorem port_forwards_semantics_witness :
    ∃ pfs, convertNetwork (.map [("ports", .list [.str "8080:80", .str "x:y"])]) =
      .ok ⟨"bridge", pfs⟩ := by
  obtain ⟨⟨pfs, hpfs, _⟩, _⟩ :=
    port_forwards_semantics [("ports", .list [.str "8080:80", .str "x:y"])]
      [.str "8080:80", .str "x:y"] rfl
  exact ⟨pfs, hpfs⟩

/-- C10 (amended): a service definition that is a mapping with no
`image` key, or with `image` the empty string, converts with image
`{repository: "", tag: "latest"}` — provided its other fields are
well-typed (`ports`/`volumes` sequences when present, string elements
in a list-form `environment`), since a failure in those fields is
independent of the image.  A missing image itself never causes an
error. -/
theorem missing_image_defaults (name : String) (kvs : List (String × Yaml))
    (hw : wellTypedService (.map kvs) = true)
    (him : dictLookup kvs "image" = none ∨
           dictLookup kvs "image" = some (.str "")) :
    ∃ svc, convertService name (.map kvs) = .ok svc ∧
      svc.repository = "" ∧ svc.tag = "latest" := by
  obtain ⟨svc, hsvc⟩ := convertService_ok_of_wellTyped name (.map kvs) hw
  have hgd : (dictLookup kvs "image").getD (.str "") = Yaml.str "" := by
    rcases him with him | him <;> rw [him] <;> rfl
  obtain ⟨hrepo, htag⟩ := convertService_image name kvs svc "" hgd hsvc
  exact ⟨svc, hsvc, hrepo.trans rfl, htag.trans rfl⟩

/-- Witness for C10 at the empty service mapping. -/
theorem missing_image_defaults_witness :
    ∃ svc, convertService "web" (.map []) = .ok svc ∧
      svc.repository = "" ∧ svc.tag = "latest" :=
  missing_image_defaults "web" [] (by decide) (Or.inl rfl)

/-- Counterexample for C10 as stated: a mapping service definition with
no `image` key whose `ports` value is the integer 5 makes the
conversion of that service fail (Python iterates `for port in 5`,
a `TypeError`), so "convert succeeds for that service" does not hold
for every image-less mapping. -/
theorem missing_image_ports_scalar_fails :
    convertService "web" (.map [("ports", .int 5)]) = .error .typeError :=
  rfl

/-- C5 (amended): storage keys are `volume_<i>` with `i` the entry's
0-based index within the *original* volumes sequence, assigned in
source order; every entry consumes an index (including skipped
non-string entries and colon-free strings), and a key is emitted
exactly for the string entries containing `:`. -/
theorem storage_keys_follow_original_indices (vols : List Yaml) :
    (storageOfVolumes 0 vols).map Prod.fst =
      (vols.enum.filter fun p => processedVolume p.2).map
        fun p => "volume_" ++ toString p.1 := by
  suffices hgen : ∀ i vs, (storageOfVolumes i vs).map Prod.fst =
      ((List.enumFrom i vs).filter fun p => processedVolume p.2).map
        (fun p => "volume_" ++ toString p.1) from hgen 0 vols
  intro i vs
  induction vs generalizing i with
  | nil => rfl
  | cons v rest ih =>
    show (((match v with
            | Yaml.str s =>
              if strContains s ":" then [("volume_" ++ toString i, mkVolumeEntry s)]
              else []
            | _ => []) ++ storageOfVolumes (i + 1) rest).map Prod.fst) = _
    rw [List.map_append, ih (i + 1)]
    cases v with
    | str s =>
      by_cases hc : strContains s ":"
      · simp [List.enumFrom, processedVolume, hc]
      · simp [List.enumFrom, processedVolume, hc]
    | null => simp [List.enumFrom, processedVolume]
    | bool b => simp [List.enumFrom, processedVolume]
    | int n => simp [List.enumFrom, processedVolume]
    | list xs => simp [List.enumFrom, processedVolume]
    | map m => simp [List.enumFrom, processedVolume]

/-- Counterexample for C5 as stated: with volumes `[1, "data:/app"]`
the skipped integer entry still consumes an index, so the single key
is `volume_1`, not the `volume_0` that counting only string-form
entries would give. -/
theorem storage_key_counts_skipped_entries :
    (storageOfVolumes 0 [.int 1, .str "data:/app"]).map Prod.fst = ["volume_1"]
  ∧ ("volume_1" : String) ≠ "volume_0" :=
  ⟨rfl, by decide⟩

/-- C4, evaluated at the failing input: for the volume `"_data:/app"`
the host token `"_data"` is not under `/mnt/`, so an ix_volume is
produced, but its `dataset_name` keeps the leading underscore —
`host_path.strip("/")` strips slashes only, although the code comment
and the claim say leading underscores are stripped as well. -/
theorem underscore_dataset_name_kept :
    mkVolumeEntry "_data:/app" = .ix_volume "_data" false "/app"
  ∧ "_data".data.take 1 = ['_'] :=
  ⟨rfl, rfl⟩

/-- C6, evaluated at the failing input: the guard shared by
`TrueNASClient.list_directory` and `MockTrueNASClient.list_directory`
tests `normalized.startswith("/mnt")` without the trailing slash, so
the path `"/mntevil"` — which does not lie under the `/mnt` root —
passes the guard and is forwarded to the backend. -/
theorem list_directory_guard_prefix_bypass :
    listDirectoryGuard "/mntevil" = .ok "/mntevil"
  ∧ underMntRoot "/mntevil" = false :=
  ⟨rfl, by decide⟩

theorem mkVolumeEntry_eq (s : String) :
    mkVolumeEntry s =
      if strStartsWith (normpath ((pySplit s ':').getD 0 "")) "/mnt/" then
        .host_path (normpath ((pySplit s ':').getD 0 ""))
          ((pySplit s ':').getD 1 "") (strContains s ":ro")
      else
        .ix_volume
          (pyReplaceChar (pyStripSlashes ((pySplit s ':').getD 0 "")) '/' '_')
          false ((pySplit s ':').getD 1 "") := rfl

/-- C9: a string volume entry containing `:` whose host token
normalizes to exactly `"/mnt"` (no trailing component) is classified
as the named-volume (ix_volume) variant — host-path classification
requires the strict prefix `"/mnt/"` — and its `dataset_name` is
derived from the original, un-normalized host token. -/
theorem exact_mnt_host_is_ix_volume (s host : String)
    (hcolon : strContains s ":" = true)
    (hhost : (pySplit s ':').getD 0 "" = host)
    (hnorm : normpath host = "/mnt") :
    mkVolumeEntry s =
      .ix_volume (pyReplaceChar (pyStripSlashes host) '/' '_') false
        ((pySplit s ':').getD 1 "") := by
  rw [mkVolumeEntry_eq, hhost, hnorm,
      show strStartsWith "/mnt" "/mnt/" = false from by decide]
  rfl

/-- Witness for C9 at the volume `"/mnt:/data"`. -/
theorem exact_mnt_host_is_ix_volume_witness :
    mkVolumeEntry "/mnt:/data" = .ix_volume "mnt" false "/data" :=
  (exact_mnt_host_is_ix_volume "/mnt:/data" "/mnt" (by decide) rfl rfl).trans
    (by decide)

theorem pyCall_clientExn (meth m : String) (cres : Option String)
    (retry : Outcome) :
    pyCall ⟨true, meth, .clientExn m, cres, retry⟩ =
      if isAuthMsg m then
        (.authError ("Not authenticated: " ++ m), [.callAttempt])
      else if isTransportMsg m then
        match cres with
        | some m2 =>
          (.apiError ("API call " ++ meth ++ " failed after reconnect: " ++ m2),
           [.callAttempt, .disconnect, .connectAttempt])
        | none =>
          match retry with
          | .ok v =>
            (.ok v, [.callAttempt, .disconnect, .connectAttempt, .callAttempt])
          | .clientExn m2 =>
            (.apiError ("API call " ++ meth ++ " failed after reconnect: " ++ m2),
             [.callAttempt, .disconnect, .connectAttempt, .callAttempt])
          | .otherExn m2 =>
            (.apiError ("API call " ++ meth ++ " failed after reconnect: " ++ m2),
             [.callAttempt, .disconnect, .connectAttempt, .callAttempt])
      else
        (.apiError ("API call " ++ meth ++ " failed: " ++ m), [.callAttempt]) := rfl

/-- C7: for every `_call` invocation on a connected client — at most
two underlying call attempts are ever made; exactly two happen only
when the first attempt raised a `ClientException` detected as a
transport failure (not an authentication error), and then the trace is
disconnect, reconnect, one retried call; an authentication error is
surfaced after a single attempt (never retried); a `ClientException`
that is neither an authentication nor a transport failure (an
application-level error) is surfaced after a single attempt (never
retried); and when the reconnect or the retried call fails, an error
is surfaced to the caller. -/
theorem call_reconnects_exactly_once (env : CallEnv) (hc : env.connected = true) :
    callAttempts (pyCall env).2 ≤ 2
  ∧ (callAttempts (pyCall env).2 = 2 →
       ∃ m, env.first = .clientExn m ∧ isAuthMsg m = false ∧
         isTransportMsg m = true ∧
         (pyCall env).2 = [.callAttempt, .disconnect, .connectAttempt, .callAttempt])
  ∧ (∀ m, env.first = .clientExn m → isAuthMsg m = true →
       pyCall env = (.authError ("Not authenticated: " ++ m), [.callAttempt]))
  ∧ (∀ m, env.first = .clientExn m → isAuthMsg m = false →
       isTransportMsg m = false →
       pyCall env =
         (.apiError ("API call " ++ env.method ++ " failed: " ++ m), [.callAttempt]))
  ∧ (∀ m, env.first = .clientExn m → isAuthMsg m = false →
       isTransportMsg m = true →
       (env.connectResult ≠ none ∨ ∀ v, env.retry ≠ .ok v) →
       isCallError (pyCall env).1 = true) := by
  obtain ⟨c, meth, first, cres, retry⟩ := env
  cases c with
  | false => exact absurd hc (by simp)
  | true =>
    cases first with
    | ok v =>
      refine ⟨show callAttempts [CallEvent.callAttempt] ≤ 2 by decide,
        fun h2 => absurd (show callAttempts [CallEvent.callAttempt] = 2 from h2)
          (by decide), ?_, ?_, ?_⟩ <;>
        exact fun m hm => Outcome.noConfusion hm
    | otherExn m1 =>
      refine ⟨show callAttempts [CallEvent.callAttempt] ≤ 2 by decide,
        fun h2 => absurd (show callAttempts [CallEvent.callAttempt] = 2 from h2)
          (by decide), ?_, ?_, ?_⟩ <;>
        exact fun m hm => Outcome.noConfusion hm
    | clientExn m0 =>
      cases hauth : isAuthMsg m0 with
      | true =>
        have heq : pyCall ⟨true, meth, .clientExn m0, cres, retry⟩ =
            (.authError ("Not authenticated: " ++ m0), [.callAttempt]) := by
          rw [pyCall_clientExn, hauth]
          rfl
        refine ⟨?_, ?_, ?_, ?_, ?_⟩
        · rw [heq]
          exact show callAttempts [CallEvent.callAttempt] ≤ 2 by decide
        · rw [heq]
          intro h2
          exact absurd (show callAttempts [CallEvent.callAttempt] = 2 from h2)
            (by decide)
        · intro m hm h2
          injection hm with hm2
          subst hm2
          rw [heq]
        · intro m hm h2 h3
          injection hm with hm2
          subst hm2
          rw [hauth] at h2
          exact Bool.noConfusion h2
        · intro m hm h2 h3 h4
          injection hm with hm2
          subst hm2
          rw [hauth] at h2
          exact Bool.noConfusion h2
      | false =>
        cases htr : isTransportMsg m0 with
        | false =>
          have heq : pyCall ⟨true, meth, .clientExn m0, cres, retry⟩ =
              (.apiError ("API call " ++ meth ++ " failed: " ++ m0),
               [.callAttempt]) := by
            rw [pyCall_clientExn, hauth, htr]
            rfl
          refine ⟨?_, ?_, ?_, ?_, ?_⟩
          · rw [heq]
            exact show callAttempts [CallEvent.callAttempt] ≤ 2 by decide
          · rw [heq]
            intro h2
            exact absurd (show callAttempts [CallEvent.callAttempt] = 2 from h2)
              (by decide)
          · intro m hm h2
            injection hm with hm2
            subst hm2
            rw [hauth] at h2
            exact Bool.noConfusion h2
          · intro m hm h2 h3
            injection hm with hm2
            subst hm2
            rw [heq]
          · intro m hm h2 h3 h4
            injection hm with hm2
            subst hm2
            rw [htr] at h3
            exact Bool.noConfusion h3
        | true =>
          cases cres with
          | some m2 =>
            have heq : pyCall ⟨true, meth, .clientExn m0, some m2, retry⟩ =
                (.apiError ("API call " ++ meth ++ " failed after reconnect: " ++ m2),
                 [.callAttempt, .disconnect, .connectAttempt]) := by
              rw [pyCall_clientExn, hauth, htr]
              rfl
            refine ⟨?_, ?_, ?_, ?_, ?_⟩
            · rw [heq]
              exact show callAttempts
                [CallEvent.callAttempt, CallEvent.disconnect,
                 CallEvent.connectAttempt] ≤ 2 by decide
            · rw [heq]
              intro h2
              exact absurd (show callAttempts
                [CallEvent.callAttempt, CallEvent.disconnect,
                 CallEvent.connectAttempt] = 2 from h2) (by decide)
            · intro m hm h2
              injection hm with hm2
              subst hm2
              rw [hauth] at h2
              exact Bool.noConfusion h2
            · intro m hm h2 h3
              injection hm with hm2
              subst hm2
              rw [htr] at h3
              exact Bool.noConfusion h3
            · intro m hm h2 h3 h4
              injection hm with hm2
              subst hm2
              rw [heq]
              rfl
          | none =>
            cases retry with
            | ok v =>
              have heq : pyCall ⟨true, meth, .clientExn m0, none, .ok v⟩ =
                  (.ok v,
                   [.callAttempt, .disconnect, .connectAttempt, .callAttempt]) := by
                rw [pyCall_clientExn, hauth, htr]
                rfl
              refine ⟨?_, ?_, ?_, ?_, ?_⟩
              · rw [heq]
                exact show callAttempts
                  [CallEvent.callAttempt, CallEvent.disconnect,
                   CallEvent.connectAttempt, CallEvent.callAttempt] ≤ 2 by decide
              · rw [heq]
                intro h2
                exact ⟨m0, rfl, hauth, htr, rfl⟩
              · intro m hm h2
                injection hm with hm2
                subst hm2
                rw [hauth] at h2
                exact Bool.noConfusion h2
              · intro m hm h2 h3
                injection hm with hm2
                subst hm2
                rw [htr] at h3
                exact Bool.noConfusion h3
              · intro m hm h2 h3 h4
                injection hm with hm2
                subst hm2
                rcases h4 with h4 | h4
                · exact absurd rfl h4
                · exact absurd rfl (h4 v)
            | clientExn m2 =>
              have heq : pyCall ⟨true, meth, .clientExn m0, none, .clientExn m2⟩ =
                  (.apiError ("API call " ++ meth ++ " failed after reconnect: " ++ m2),
                   [.callAttempt, .disconnect, .connectAttempt, .callAttempt]) := by
                rw [pyCall_clientExn, hauth, htr]
                rfl
              refine ⟨?_, ?_, ?_, ?_, ?_⟩
              · rw [heq]
                exact show callAttempts
                  [CallEvent.callAttempt, CallEvent.disconnect,
                   CallEvent.connectAttempt, CallEvent.callAttempt] ≤ 2 by decide
              · rw [heq]
                intro h2
                exact ⟨m0, rfl, hauth, htr, rfl⟩
              · intro m hm h2
                injection hm with hm2
                subst hm2
                rw [hauth] at h2
                exact Bool.noConfusion h2
              · intro m hm h2 h3
                injection hm with hm2
                subst hm2
                rw [htr] at h3
                exact Bool.noConfusion h3
              · intro m hm h2 h3 h4
                injection hm with hm2
                subst hm2
                rw [heq]
                rfl
            | otherExn m2 =>
              have heq : pyCall ⟨true, meth, .clientExn m0, none, .otherExn m2⟩ =
                  (.apiError ("API call " ++ meth ++ " failed after reconnect: " ++ m2),
                   [.callAttempt, .disconnect, .connectAttempt, .callAttempt]) := by
                rw [pyCall_clientExn, hauth, htr]
                rfl
              refine ⟨?_, ?_, ?_, ?_, ?_⟩
              · rw [heq]
                exact show callAttempts
                  [CallEvent.callAttempt, CallEvent.disconnect,
                   CallEvent.connectAttempt, CallEvent.callAttempt] ≤ 2 by decide
              · rw [heq]
                intro h2
                exact ⟨m0, rfl, hauth, htr, rfl⟩
              · intro m hm h2
                injection hm with hm2
                subst hm2
                rw [hauth] at h2
                exact Bool.noConfusion h2
              · intro m hm h2 h3
                injection hm with hm2
                subst hm2
                rw [htr] at h3
                exact Bool.noConfusion h3
              · intro m hm h2 h3 h4
                injection hm with hm2
                subst hm2
                rw [heq]
                rfl

/-- Witness for C7 at a concrete transport failure followed by a
successful reconnect and retry. -/
theorem call_reconnects_exactly_once_witness :
    callAttempts (pyCall ⟨true, "app.query", .clientExn "Connection closed",
      none, .ok 7⟩).2 ≤ 2 :=
  (call_reconnects_exactly_once
    ⟨true, "app.query", .clientExn "Connection closed", none, .ok 7⟩ rfl).1

/-- C8: for every invocation of the `delete_custom_app` and
`delete_snapshot` tools with the confirmation flag false or absent,
the dispatched handler returns an error-marked (`❌`-prefixed) text
result, the backend state is unchanged, and the result does not depend
on the backend delete operation (it is never invoked). -/
theorem delete_tools_fail_closed (σ : Type) (appName snapName : String)
    (dv cd : Option Bool)
    (f f2 : String → Bool → σ → Bool × σ) (g g2 : String → σ → Bool × σ)
    (s : σ) (h : cd = none ∨ cd = some false) :
    (dispatchDeleteCustomApp σ appName dv cd f s).2 = s
  ∧ isErrorMarked (dispatchDeleteCustomApp σ appName dv cd f s).1 = true
  ∧ dispatchDeleteCustomApp σ appName dv cd f s =
      dispatchDeleteCustomApp σ appName dv cd f2 s
  ∧ (dispatchDeleteSnapshot σ snapName cd g s).2 = s
  ∧ isErrorMarked (dispatchDeleteSnapshot σ snapName cd g s).1 = true
  ∧ dispatchDeleteSnapshot σ snapName cd g s =
      dispatchDeleteSnapshot σ snapName cd g2 s := by
  rcases h with rfl | rfl
  · exact ⟨rfl,
      show isErrorMarked ⟨"text",
        "❌ Error executing delete_custom_app: \x27confirm_deletion\x27"⟩ = true
        by decide,
      rfl, rfl,
      show isErrorMarked ⟨"text",
        "❌ Error executing delete_snapshot: \x27confirm_deletion\x27"⟩ = true
        by decide,
      rfl⟩
  · exact ⟨rfl,
      show isErrorMarked ⟨"text",
        "❌ Deletion not confirmed. Set confirm_deletion=true to proceed."⟩ = true
        by decide,
      rfl, rfl,
      show isErrorMarked ⟨"text",
        "❌ Deletion not confirmed. Set confirm_deletion=true to proceed."⟩ = true
        by decide,
      rfl⟩

/-- Witness for C8: unconfirmed deletion over a concrete natural-number
backend state leaves the state unchanged. -/
theorem delete_tools_fail_closed_witness :
    (dispatchDeleteCustomApp Nat "app" none (some false)
        (fun _ _ n => (true, n + 1)) 0).2 = 0 :=
  (delete_tools_fail_closed Nat "app" "pool/ds@snap" none (some false)
      (fun _ _ n => (true, n + 1)) (fun _ _ n => (false, n))
      (fun _ n => (true, n + 1)) (fun _ n => (false, n)) 0 (Or.inr rfl)).1
